import Mathlib

/-!
Shallow embedding of pgModeler's ModelDatabaseDiffForm
(src/libs/libgui/src/tools/modeldatabasediffform.cpp) together with proofs
about the behaviour of the diff orchestration: partial-diff filter handling,
ignored error codes of the export phase, preview mode, thread sequencing,
close-event handling and progress reporting.
-/

namespace PgDiff

/-! ## Partial-diff filter matching mode (importDatabase / applyPartialDiffFilters) -/

/-- Matching-mode argument passed to Catalog::setObjectFilters in
ModelDatabaseDiffForm::importDatabase (line 572): when the
generate-filters-from-changelog checkbox is checked, objects are always
filtered by signature, otherwise the mode chosen in the filter widget is
used. -/
def catalogMatchSignature (genFiltersFromLog isMatchSignature : Bool) : Bool :=
  if genFiltersFromLog then true else isMatchSignature

/-- The attribute used by the model object search in
ModelDatabaseDiffForm::applyPartialDiffFilters (lines 1327-1329). -/
inductive SearchAttr
  | name
  | signature
  deriving DecidableEq

/-- Search attribute selected by applyPartialDiffFilters for the model
object search: signature when the changelog option is on or the widget asks
for signature matching; display name otherwise. -/
def searchAttrOf (genFiltersFromLog isMatchSignature : Bool) : SearchAttr :=
  if genFiltersFromLog || isMatchSignature then SearchAttr.signature else SearchAttr.name

/-! ## Thread state (isThreadsRunning / closeEvent) -/

/-- Running state of the four phase threads plus bookkeeping used for the
sequencing proofs: whether the run compares two databases (src_database_rb)
and which imports have already finished. -/
structure PhaseThreads where
  srcImportRunning : Bool
  importRunning : Bool
  diffRunning : Bool
  exportRunning : Bool
  dbSource : Bool
  srcImportDone : Bool
  importDone : Bool
  deriving DecidableEq

/-- The state of the form before any diff run is started. -/
def initThreads : PhaseThreads :=
  { srcImportRunning := false, importRunning := false, diffRunning := false,
    exportRunning := false, dbSource := false, srcImportDone := false, importDone := false }

/-- ModelDatabaseDiffForm::isThreadsRunning (lines 219-225). -/
def isThreadsRunning (st : PhaseThreads) : Bool :=
  st.importRunning || st.srcImportRunning || st.diffRunning || st.exportRunning

/-- Observable outcome of a close request on the form. -/
structure CloseOutcome where
  eventIgnored : Bool
  cancelled : Bool
  eventLoopQuit : Bool
  deriving DecidableEq

/-- ModelDatabaseDiffForm::closeEvent (lines 245-256): the close event is
ignored while a phase thread runs; a close while the process is paused
cancels the operation; the event loop is quit only when no thread runs. -/
def closeEvent (st : PhaseThreads) (processPaused : Bool) : CloseOutcome :=
  if isThreadsRunning st then
    { eventIgnored := true, cancelled := false, eventLoopQuit := false }
  else
    { eventIgnored := false, cancelled := processPaused, eventLoopQuit := true }

/-! ## Progress reporting (updateProgress) -/

/-- Which phase thread is currently running when updateProgress fires;
the import phase also records whether the source is the loaded model
(src_model_rb), which changes the scaling. -/
inductive RunPhase
  | srcImportPhase
  | importPhase (srcModelChecked : Bool)
  | diffPhase
  | exportPhase
  | noPhase
  deriving DecidableEq

/-- The aggregate progress value progress_aux computed by
ModelDatabaseDiffForm::updateProgress (lines 930-991) for the running
phase; diffProgress is the step bar value captured at the start of the
diff or export phase. -/
def progressAux (phase : RunPhase) (progress diffProgress : Nat) : Nat :=
  match phase with
  | RunPhase.srcImportPhase => progress / 5
  | RunPhase.importPhase srcModel => if srcModel then progress / 4 else 20 + progress / 5
  | RunPhase.diffPhase => diffProgress + progress / 3
  | RunPhase.exportPhase => diffProgress + progress / 3
  | RunPhase.noPhase => 0

/-- The step progress bar update of updateProgress (lines 993-994): the new
aggregate value is written only when it exceeds the current bar value. -/
def updateStepProgress (stepPbValue : Nat) (phase : RunPhase) (progress diffProgress : Nat) : Nat :=
  let aux := progressAux phase progress diffProgress
  if aux > stepPbValue then aux else stepPbValue

/-! ## Diff completion (handleDiffFinished) -/

/-- The phase handleDiffFinished hands control to. -/
inductive NextPhase
  | saveToFile
  | exportPhase
  | finish
  deriving DecidableEq

/-- Placeholder written to the SQL preview when the diff is empty
(line 902). -/
def noDiffPlaceholder : String :=
  "-- No differences were detected between model and database. --"

/-- ModelDatabaseDiffForm::handleDiffFinished (lines 875-903) restricted to
its observable decision: the diff text is loaded into the preview, then
either saveDiffToFile (store-in-file mode), exportDiff (non-empty script)
or finishDiff (empty script) is invoked; an empty preview is finally
replaced by the fixed placeholder comment. -/
def handleDiffFinished (storeInFile : Bool) (diffDef : String) : NextPhase × String :=
  let next :=
    if storeInFile then NextPhase.saveToFile
    else if diffDef ≠ "" then NextPhase.exportPhase
    else NextPhase.finish
  (next, if diffDef = "" then noDiffPlaceholder else diffDef)

/-! ## Theorems for claims C1, C8, C9, C10 -/

/-- C1: whenever the partial-diff filters were derived from the change log
(the filter-by-date/changelog option is enabled), both the matching mode
passed to the catalog (importDatabase, line 572) and the attribute used by
the model object search (applyPartialDiffFilters, lines 1327-1329) are
signature matching, regardless of the mode chosen in the filter widget;
when the changelog option is disabled, the widget's chosen mode is used. -/
theorem changelog_filters_force_signature_matching :
    ∀ m : Bool,
      catalogMatchSignature true m = true ∧
      searchAttrOf true m = SearchAttr.signature ∧
      catalogMatchSignature false m = m ∧
      searchAttrOf false m = (if m then SearchAttr.signature else SearchAttr.name) := by
  decide

/-- C8: when the diff phase finishes with an empty SQL script, the export
phase is never the next phase (so the apply thread is not started), the
run completes directly via finishDiff in apply-on-server mode, and the
SQL preview is set to the fixed no-differences placeholder. -/
theorem empty_diff_skips_export :
    ∀ storeInFile : Bool,
      (handleDiffFinished storeInFile "").1 ≠ NextPhase.exportPhase ∧
      (handleDiffFinished storeInFile "").2 = noDiffPlaceholder ∧
      (handleDiffFinished false "").1 = NextPhase.finish := by
  decide

/-- C9: a window-close request is ignored and the event loop is not quit
exactly while one of the four phase threads is running; when no thread
runs the event loop is quit, and the operation is cancelled precisely when
the process was paused. -/
theorem close_event_blocked_while_running :
    ∀ (st : PhaseThreads) (paused : Bool),
      (closeEvent st paused).eventIgnored = isThreadsRunning st ∧
      (closeEvent st paused).eventLoopQuit = !isThreadsRunning st ∧
      (closeEvent st paused).cancelled = (!isThreadsRunning st && paused) := by
  intro st paused
  unfold closeEvent
  by_cases h : isThreadsRunning st = true
  · simp [h]
  · simp [Bool.not_eq_true] at h
    simp [h]

/-- C10: each call of updateProgress leaves the step progress bar value
unchanged or raises it to the new aggregate value, and it writes a new
value only when that value strictly exceeds the current one, so the bar
never moves backwards. -/
theorem step_progress_monotone :
    ∀ (stepPb : Nat) (phase : RunPhase) (progress diffProgress : Nat),
      stepPb ≤ updateStepProgress stepPb phase progress diffProgress ∧
      (updateStepProgress stepPb phase progress diffProgress = stepPb ∨
        (stepPb < progressAux phase progress diffProgress ∧
          updateStepProgress stepPb phase progress diffProgress =
            progressAux phase progress diffProgress)) := by
  intro stepPb phase progress diffProgress
  unfold updateStepProgress
  by_cases h : progressAux phase progress diffProgress > stepPb
  · simp only [if_pos h]
    exact ⟨Nat.le_of_lt h, Or.inr ⟨h, trivial⟩⟩
  · simp only [if_neg h]
    exact ⟨Nat.le_refl _, Or.inl trivial⟩

/-! ## Ignored error codes of the export phase (createThread / exportDiff) -/

/-- Modelled from the spec: ModelExportHelper::setIgnoredErrors is not under
src/; per the spec the applier checks each failing statement's code against
the caller-supplied ignore-list plus the built-in default, so supplying
codes accumulates them onto the helper's current ignored set. -/
def setIgnoredErrors (current codes : List String) : List String :=
  current ++ codes

/-- Built-in ignored error code installed on the freshly created export
helper by createThread (line 310). -/
def builtinIgnoredError : String := "0A000"

/-- Ignored-error codes effective for the apply (export) phase: createThread
(line 310) installs the built-in default on the fresh helper; exportDiff
(lines 691-692) adds the user-supplied codes when the ignore-error-codes
checkbox is checked. -/
def exportIgnoredErrors (ignoreErrorCodesChk : Bool) (userCodes : List String) : List String :=
  let fromCreate := setIgnoredErrors [] [builtinIgnoredError]
  if ignoreErrorCodesChk then setIgnoredErrors fromCreate userCodes else fromCreate

/-! ## Export preview mode (exportDiff) -/

/-- The user's answer to the confirmation dialog of exportDiff
(lines 663-668): apply the diff, preview it, or cancel. -/
inductive ExportChoice
  | applyDiff
  | previewDiff
  | cancelDiff
  deriving DecidableEq

/-- The observable state of one diff run around the apply phase:
whether export_thread->start() was called, the process_paused flag, the
close button state, and the synthesized SQL script held by the preview. -/
structure DiffRunState where
  exportStarted : Bool
  processPaused : Bool
  closeBtnEnabled : Bool
  sqlCode : String
  deriving DecidableEq

/-- ModelDatabaseDiffForm::cancelOperation restricted to the fields of
DiffRunState (lines 796-836): the paused flag is cleared and the close
button re-enabled. -/
def cancelOperation (st : DiffRunState) : DiffRunState :=
  { st with processPaused := false, closeBtnEnabled := true }

/-- ModelDatabaseDiffForm::exportDiff (lines 657-711). With confirm unset
the dialog is skipped and the export thread is started directly; with
confirm set, accepting starts the thread, cancelling aborts the operation,
and the remaining (preview) answer pauses the process without starting the
thread, keeping the script. -/
def exportDiff (confirm : Bool) (choice : ExportChoice) (st : DiffRunState) : DiffRunState :=
  if confirm = false ∨ choice = ExportChoice.applyDiff then
    { st with exportStarted := true, closeBtnEnabled := false }
  else if choice = ExportChoice.cancelDiff then
    cancelOperation st
  else
    { st with processPaused := true, closeBtnEnabled := true }

/-! ## DropMissingColsConstr / DontDropMissingObjs coupling -/

/-- The two missing-objects checkboxes of the form plus the enabled state
of drop_missing_cols_constr_chk. -/
structure MissingObjsChecks where
  dontDropMissingObjs : Bool
  dropMissingColsConstr : Bool
  dropMissingColsEnabled : Bool
  deriving DecidableEq

/-- Wiring established in the constructor (line 114): the enabled state of
drop_missing_cols_constr_chk always follows the checked state of
dont_drop_missing_objs_chk. -/
def checksInv (st : MissingObjsChecks) : Prop :=
  st.dropMissingColsEnabled = st.dontDropMissingObjs

/-- setChecked on dont_drop_missing_objs_chk: the toggled(bool) signal
fires on a state change and runs setEnabled on
drop_missing_cols_constr_chk (line 114). -/
def setDontDropChecked (st : MissingObjsChecks) (v : Bool) : MissingObjsChecks :=
  if st.dontDropMissingObjs = v then st
  else { st with dontDropMissingObjs := v, dropMissingColsEnabled := v }

/-- ModelDatabaseDiffForm::selectPreset (lines 1165-1167) restricted to the
two missing-objects checkboxes: dont_drop_missing_objs_chk is checked from
the preset, and drop_missing_cols_constr_chk is checked only when the
preset sets both flags. -/
def selectPresetMissingObjs (st : MissingObjsChecks)
    (presetDontDrop presetDropCols : Bool) : MissingObjsChecks :=
  let st1 := setDontDropChecked st presetDontDrop
  { st1 with dropMissingColsConstr := presetDontDrop && presetDropCols }

/-! ## Theorems for claims C2, C3, C5 -/

/-- C2: in the apply (export) phase, the effective set of ignored error
codes always contains the built-in default installed by createThread, and
when the user supplies explicit error codes, the effective set contains
the built-in default in addition to every supplied code. -/
theorem export_ignored_errors_contain_builtin :
    ∀ (chk : Bool) (userCodes : List String),
      builtinIgnoredError ∈ exportIgnoredErrors chk userCodes ∧
      (∀ c ∈ userCodes, c ∈ exportIgnoredErrors true userCodes) := by
  intro chk userCodes
  constructor
  · cases chk <;>
      simp [exportIgnoredErrors, setIgnoredErrors]
  · intro c hc
    simp [exportIgnoredErrors, setIgnoredErrors]
    exact Or.inr hc

/-- Witness for C2 at a concrete user-supplied code list. -/
theorem export_ignored_errors_contain_builtin_witness :
    builtinIgnoredError ∈ exportIgnoredErrors true ["42601"] ∧
      "42601" ∈ exportIgnoredErrors true ["42601"] :=
  ⟨(export_ignored_errors_contain_builtin true ["42601"]).1,
    (export_ignored_errors_contain_builtin true ["42601"]).2 "42601" (by decide)⟩

/-- C3: choosing the preview answer in the confirmation dialog leaves the
export thread unstarted and the SQL script untouched while pausing the
process, and the export thread is started by exportDiff exactly when the
dialog was skipped (the explicit apply action, confirm = false) or the
user explicitly accepted, or it had been started before. -/
theorem preview_does_not_start_export :
    ∀ (st : DiffRunState) (confirm : Bool) (choice : ExportChoice),
      (exportDiff true ExportChoice.previewDiff st).exportStarted = st.exportStarted ∧
      (exportDiff true ExportChoice.previewDiff st).sqlCode = st.sqlCode ∧
      (exportDiff true ExportChoice.previewDiff st).processPaused = true ∧
      (exportDiff confirm choice st).exportStarted =
        ((!confirm || decide (choice = ExportChoice.applyDiff)) || st.exportStarted) := by
  intro st confirm choice
  refine ⟨by simp [exportDiff], by simp [exportDiff], by simp [exportDiff], ?_⟩
  cases confirm <;> cases choice <;>
    simp [exportDiff, cancelOperation]

/-- C5: the line-114 wiring keeps drop_missing_cols_constr_chk enabled
exactly when dont_drop_missing_objs_chk is checked, selectPreset preserves
this, and restoring a preset that does not set DontDropMissingObjs leaves
DropMissingColsConstr unchecked and disabled. -/
theorem drop_missing_cols_requires_dont_drop :
    ∀ (st : MissingObjsChecks) (presetDontDrop presetDropCols : Bool),
      checksInv st →
      checksInv (selectPresetMissingObjs st presetDontDrop presetDropCols) ∧
      (selectPresetMissingObjs st presetDontDrop presetDropCols).dropMissingColsEnabled
        = presetDontDrop ∧
      (presetDontDrop = false →
        (selectPresetMissingObjs st presetDontDrop presetDropCols).dropMissingColsConstr
            = false ∧
        (selectPresetMissingObjs st presetDontDrop presetDropCols).dropMissingColsEnabled
            = false) := by
  intro st pd pc hinv
  unfold checksInv at hinv
  by_cases h : st.dontDropMissingObjs = pd
  · constructor
    · simp [selectPresetMissingObjs, setDontDropChecked, checksInv, h, hinv]
    · constructor
      · simp [selectPresetMissingObjs, setDontDropChecked, h, hinv]
      · intro hpd
        subst hpd
        simp [selectPresetMissingObjs, setDontDropChecked, h, hinv]
  · constructor
    · simp [selectPresetMissingObjs, setDontDropChecked, checksInv, h]
    · constructor
      · simp [selectPresetMissingObjs, setDontDropChecked, h]
      · intro hpd
        subst hpd
        simp [selectPresetMissingObjs, setDontDropChecked, h]

/-- Witness for C5: a form state satisfying the enabled-follows-checked
invariant, restored from a preset that does not set DontDropMissingObjs. -/
theorem drop_missing_cols_requires_dont_drop_witness :
    checksInv { dontDropMissingObjs := true, dropMissingColsConstr := true,
                dropMissingColsEnabled := true } ∧
    (selectPresetMissingObjs
        { dontDropMissingObjs := true, dropMissingColsConstr := true,
          dropMissingColsEnabled := true } false true).dropMissingColsConstr = false :=
  ⟨rfl,
    ((drop_missing_cols_requires_dont_drop
        { dontDropMissingObjs := true, dropMissingColsConstr := true,
          dropMissingColsEnabled := true } false true rfl).2.2 rfl).1⟩

/-! ## Phase sequencing (generateDiff / handleImportFinished / handleDiffFinished) -/

/-- ModelDatabaseDiffForm::generateDiff (lines 448-517): previous threads
are destroyed and a fresh run starts with the source import when the
source is a database (src_database_rb) or directly with the target import
when the source is the loaded model. -/
def generateDiffStart (dbSource : Bool) : PhaseThreads :=
  if dbSource then
    { initThreads with dbSource := true, srcImportRunning := true }
  else
    { initThreads with importRunning := true }

/-- ModelDatabaseDiffForm::handleImportFinished (lines 852-873): when the
source import thread is still running the slot quits it and starts the
target import; otherwise it quits the target import thread and starts the
diff. -/
def handleImportFinished (st : PhaseThreads) : PhaseThreads :=
  if st.srcImportRunning then
    { st with srcImportRunning := false, srcImportDone := true, importRunning := true }
  else
    { st with importRunning := false, importDone := true, diffRunning := true }

/-- Thread effect of handleDiffFinished (lines 875-903): the diff thread is
quit; the export thread is started only on the exportDiff path. -/
def handleDiffFinishedThreads (startExport : Bool) (st : PhaseThreads) : PhaseThreads :=
  { st with diffRunning := false, exportRunning := startExport }

/-- ModelDatabaseDiffForm::handleExportFinished (lines 905-911): the export
thread is quit. -/
def handleExportFinished (st : PhaseThreads) : PhaseThreads :=
  { st with exportRunning := false }

/-- Thread states reachable through the slots of the form: a run starts
only when no phase thread is running (the generate button is disabled
during a run), import-finished fires only while one of the import threads
runs, and the diff/export completion slots fire only while the
corresponding thread runs. -/
inductive Reach : PhaseThreads → Prop
  | init : Reach initThreads
  | start (st : PhaseThreads) (dbSource : Bool) :
      Reach st → isThreadsRunning st = false → Reach (generateDiffStart dbSource)
  | importFin (st : PhaseThreads) :
      Reach st → (st.srcImportRunning || st.importRunning) = true →
      Reach (handleImportFinished st)
  | diffFin (st : PhaseThreads) (startExport : Bool) :
      Reach st → st.diffRunning = true → Reach (handleDiffFinishedThreads startExport st)
  | exportFin (st : PhaseThreads) :
      Reach st → st.exportRunning = true → Reach (handleExportFinished st)

/-- Sequencing invariant of one diff run: the two importers never run
concurrently, in a database-to-database run the target import runs only
after the source import finished, and the diff runs only after both of
the imports finished. -/
def importsSequential (st : PhaseThreads) : Prop :=
  (st.srcImportRunning && st.importRunning) = false ∧
  (st.importRunning = true → st.dbSource = true → st.srcImportDone = true) ∧
  (st.diffRunning = true →
    st.srcImportRunning = false ∧ st.importRunning = false ∧ st.importDone = true ∧
    (st.dbSource = true → st.srcImportDone = true))

/-! ## Ignored apply errors (handleErrorIgnored) -/

/-- One entry of the ignored-error log: the server error code, the error
message and the offending statement. -/
structure IgnoredErrorEntry where
  errCode : String
  errMsg : String
  cmd : String
  deriving DecidableEq

/-- ModelDatabaseDiffForm::handleErrorIgnored (lines 913-928): appends one
top-level output entry for the ignored error, carrying the error code,
with the error message and the offending statement attached as its two
sub-items. -/
def handleErrorIgnored (log : List IgnoredErrorEntry)
    (errCode errMsg cmd : String) : List IgnoredErrorEntry :=
  log ++ [{ errCode := errCode, errMsg := errMsg, cmd := cmd }]

/-- One statement of the synthesized script together with the outcome the
server reports for it: none is success, some (code, msg) is a failure with
the given error code and message. -/
structure ScriptStmt where
  sql : String
  outcome : Option (String × String)
  deriving DecidableEq

/-- Modelled from the spec: ModelExportHelper's statement loop
(exportToDBMS) is not under src/. Statements run in order; a failing
statement whose code is in the ignored list is reported through
handleErrorIgnored and execution continues with the next statement; a
failure with a non-listed code aborts the remaining script. Returns the
statements actually executed, the ignored-error log, and the abort flag. -/
def applyScript (ignored : List String) :
    List ScriptStmt → List ScriptStmt × List IgnoredErrorEntry × Bool
  | [] => ([], [], false)
  | s :: rest =>
    match s.outcome with
    | none =>
      let r := applyScript ignored rest
      (s :: r.1, r.2.1, r.2.2)
    | some (code, msg) =>
      if code ∈ ignored then
        let r := applyScript ignored rest
        (s :: r.1, handleErrorIgnored [] code msg s.sql ++ r.2.1, r.2.2)
      else
        ([s], [], true)

/-! ## Theorems for claims C6 and C7 -/

/-- C6: in every reachable thread state, the source and target importers
never run concurrently, in a database-to-database run the target import
runs only after the source import finished, and the diff phase runs only
after both imports have finished. -/
theorem imports_never_concurrent :
    ∀ st : PhaseThreads, Reach st → importsSequential st := by
  intro st h
  induction h with
  | init => simp [importsSequential, initThreads]
  | start st dbSource hr hnr ih =>
    cases dbSource <;> simp [importsSequential, generateDiffStart, initThreads]
  | importFin st hr hrun ih =>
    obtain ⟨h1, h2, h3⟩ := ih
    by_cases hs : st.srcImportRunning = true
    · have hdiff : st.diffRunning = false := by
        by_contra hd
        simp only [Bool.not_eq_false] at hd
        exact absurd (h3 hd).1 (by simp [hs])
      simp [importsSequential, handleImportFinished, hs, hdiff]
    · simp only [Bool.not_eq_true] at hs
      have himp : st.importRunning = true := by
        simpa [hs] using hrun
      refine ⟨?_, ?_, ?_⟩ <;>
        simp_all [importsSequential, handleImportFinished]
  | diffFin st startExport hr hd ih =>
    obtain ⟨h1, h2, h3⟩ := ih
    obtain ⟨h4, h5, h6, h7⟩ := h3 hd
    simp [importsSequential, handleDiffFinishedThreads, h1, h4, h5]
  | exportFin st hr he ih =>
    obtain ⟨h1, h2, h3⟩ := ih
    exact ⟨h1, h2, fun hd => h3 hd⟩

/-- Witness for C6: the state after starting a database-to-database run
and finishing the source import is reachable and satisfies the sequencing
invariant. -/
theorem imports_never_concurrent_witness :
    importsSequential (handleImportFinished (generateDiffStart true)) :=
  imports_never_concurrent _
    (Reach.importFin (generateDiffStart true)
      (Reach.start initThreads true Reach.init rfl) rfl)

/-- Helper for C7: a script whose statements all succeed is executed in
full with an empty ignored-error log and no abort. -/
theorem applyScript_all_ok (ignored : List String) :
    ∀ l : List ScriptStmt, (∀ s ∈ l, s.outcome = none) →
      applyScript ignored l = (l, [], false) := by
  intro l
  induction l with
  | nil => intro _; rfl
  | cons s rest ih =>
    intro h
    have hs : s.outcome = none := h s (by simp)
    have hrest : applyScript ignored rest = (rest, [], false) :=
      ih (fun t ht => h t (by simp [ht]))
    simp [applyScript, hs, hrest]

/-- C7: running a script in which exactly one statement fails, with an
error code on the ignored list, executes every statement (the failure does
not abort the run) and produces exactly one ignored-error log entry,
carrying the triple of error code, error message and offending statement. -/
theorem ignored_error_logged_once_and_continues :
    ∀ (ignored : List String) (pre post : List ScriptStmt) (f : ScriptStmt)
      (code msg : String),
      (∀ s ∈ pre, s.outcome = none) →
      (∀ s ∈ post, s.outcome = none) →
      f.outcome = some (code, msg) →
      code ∈ ignored →
      applyScript ignored (pre ++ f :: post) =
        (pre ++ f :: post,
          [{ errCode := code, errMsg := msg, cmd := f.sql }], false) := by
  intro ignored pre post f code msg hpre hpost hf hcode
  induction pre with
  | nil =>
    have hrest : applyScript ignored post = (post, [], false) :=
      applyScript_all_ok ignored post hpost
    simp [applyScript, hf, hcode, hrest, handleErrorIgnored]
  | cons s rest ih =>
    have hs : s.outcome = none := hpre s (by simp)
    have hrec := ih (fun t ht => hpre t (by simp [ht]))
    simp [applyScript, hs, hrec]

/-- Witness for C7: a three-statement script whose middle statement fails
with an ignore-listed code. -/
theorem ignored_error_logged_once_and_continues_witness :
    applyScript ["42P07"]
        [{ sql := "CREATE TABLE a (x int);", outcome := none },
         { sql := "CREATE TABLE b (y int);", outcome := some ("42P07", "relation b already exists") },
         { sql := "CREATE TABLE c (z int);", outcome := none }] =
      ([{ sql := "CREATE TABLE a (x int);", outcome := none },
        { sql := "CREATE TABLE b (y int);", outcome := some ("42P07", "relation b already exists") },
        { sql := "CREATE TABLE c (z int);", outcome := none }],
        [{ errCode := "42P07", errMsg := "relation b already exists",
           cmd := "CREATE TABLE b (y int);" }], false) :=
  ignored_error_logged_once_and_continues ["42P07"]
    [{ sql := "CREATE TABLE a (x int);", outcome := none }]
    [{ sql := "CREATE TABLE c (z int);", outcome := none }]
    { sql := "CREATE TABLE b (y int);", outcome := some ("42P07", "relation b already exists") }
    "42P07" "relation b already exists"
    (by decide) (by decide) rfl (by decide)

/-! ## Changelog filter stripping (generateFiltersFromChangelog) -/

/-- Boolean test that the first character list starts the second one. -/
def isPre : List Char → List Char → Bool
  | [], _ => true
  | _ :: _, [] => false
  | a :: as, b :: bs => decide (a = b) && isPre as bs

/-- One position of the greedy QRegExp used on line 1363: the child-type
schema name, a colon, and at least one further character up to the end of
the string. -/
def matchHere (t s : List Char) : Bool :=
  isPre (t ++ [':']) s && decide (t.length + 1 < s.length)

/-- Effect of filters.replaceInStrings(QRegExp(...), "") on one filter
string (line 1363): the greedy regex erases everything from the leftmost
match position to the end of the string. -/
def stripChildType (t : List Char) : List Char → List Char
  | [] => []
  | c :: rest =>
    if matchHere t (c :: rest) then []
    else c :: stripChildType t rest

/-- Somewhere in the string there is a position matching the child-type
regex. -/
def hasChildFrag (t : List Char) : List Char → Bool
  | [] => false
  | c :: rest => matchHere t (c :: rest) || hasChildFrag t rest

/-- Schema names of the table-child object kinds whose filters are
stripped. Modelled from the spec: BaseObject::getChildObjectTypes(Table)
is not under src/; the spec enumerates columns, constraints, indexes,
triggers and rules. -/
def tabObjTypes : List (List Char) :=
  ["column".data, "constraint".data, "index".data, "trigger".data, "rule".data]

/-- ModelDatabaseDiffForm::generateFiltersFromChangelog (lines 1352-1369):
for each table-child object type the matching part of every filter string
is replaced with the empty string, and the empty strings are then removed
before the filters are handed to the filter widget. -/
def generateFiltersFromChangelog (filters : List (List Char)) : List (List Char) :=
  (tabObjTypes.foldl (fun fs t => fs.map (stripChildType t)) filters).filter
    (fun f => !f.isEmpty)

theorem isPre_refl : ∀ s : List Char, isPre s s = true := by
  intro s
  induction s with
  | nil => rfl
  | cons a as ih => simp [isPre, ih]

theorem isPre_length : ∀ a b : List Char, isPre a b = true → a.length ≤ b.length := by
  intro a
  induction a with
  | nil => intro b _; exact Nat.zero_le _
  | cons x xs ih =>
    intro b h
    cases b with
    | nil => simp [isPre] at h
    | cons y ys =>
      simp only [isPre, Bool.and_eq_true, decide_eq_true_eq] at h
      simpa [List.length] using Nat.succ_le_succ (ih ys h.2)

theorem isPre_trans :
    ∀ a b c : List Char, isPre a b = true → isPre b c = true → isPre a c = true := by
  intro a
  induction a with
  | nil => intro b c _ _; rfl
  | cons x xs ih =>
    intro b c hab hbc
    cases b with
    | nil => simp [isPre] at hab
    | cons y ys =>
      cases c with
      | nil => simp [isPre] at hbc
      | cons z zs =>
        simp only [isPre, Bool.and_eq_true, decide_eq_true_eq] at hab hbc ⊢
        exact ⟨hab.1.trans hbc.1, ih ys zs hab.2 hbc.2⟩

theorem matchHere_mono (t s s' : List Char) (hpre : isPre s' s = true)
    (h : matchHere t s' = true) : matchHere t s = true := by
  simp only [matchHere, Bool.and_eq_true, decide_eq_true_eq] at h ⊢
  exact ⟨isPre_trans _ s' s h.1 hpre, Nat.lt_of_lt_of_le h.2 (isPre_length s' s hpre)⟩

theorem stripChildType_isPre (t : List Char) :
    ∀ s : List Char, isPre (stripChildType t s) s = true := by
  intro s
  induction s with
  | nil => rfl
  | cons c rest ih =>
    by_cases h : matchHere t (c :: rest) = true
    · simp [stripChildType, h, isPre]
    · simp only [stripChildType, h, if_neg, Bool.not_eq_true]
      simp [isPre, ih, h]

theorem hasChildFrag_mono (t : List Char) :
    ∀ s' s : List Char, isPre s' s = true → hasChildFrag t s' = true →
      hasChildFrag t s = true := by
  intro s'
  induction s' with
  | nil => intro s _ h; simp [hasChildFrag] at h
  | cons c r ih =>
    intro s hpre h
    cases s with
    | nil => simp [isPre] at hpre
    | cons d rs =>
      simp only [isPre, Bool.and_eq_true, decide_eq_true_eq] at hpre
      obtain ⟨rfl, hpre2⟩ := hpre
      simp only [hasChildFrag, Bool.or_eq_true] at h ⊢
      rcases h with h | h
      · exact Or.inl (matchHere_mono t (c :: rs) (c :: r)
          (by simp [isPre, hpre2]) h)
      · exact Or.inr (ih rs hpre2 h)

theorem hasChildFrag_stripChildType (t : List Char) :
    ∀ s : List Char, hasChildFrag t (stripChildType t s) = false := by
  intro s
  induction s with
  | nil => rfl
  | cons c rest ih =>
    by_cases h : matchHere t (c :: rest) = true
    · simp [stripChildType, h, hasChildFrag]
    · simp only [stripChildType, h, if_neg, Bool.not_eq_true]
      simp only [hasChildFrag, Bool.or_eq_false_iff]
      refine ⟨?_, ih⟩
      by_contra hm
      simp only [Bool.not_eq_false] at hm
      have : matchHere t (c :: rest) = true :=
        matchHere_mono t (c :: rest) (c :: stripChildType t rest)
          (by simp [isPre, stripChildType_isPre t rest]) hm
      exact h this


theorem hasChildFrag_stripChildType_other (t t' : List Char) (s : List Char)
    (h : hasChildFrag t s = false) : hasChildFrag t (stripChildType t' s) = false := by
  by_contra hm
  simp only [Bool.not_eq_false] at hm
  have := hasChildFrag_mono t (stripChildType t' s) s (stripChildType_isPre t' s) hm
  simp [this] at h

theorem foldl_strip_preserves (t : List Char) :
    ∀ (ts : List (List Char)) (s : List Char), hasChildFrag t s = false →
      hasChildFrag t (ts.foldl (fun a u => stripChildType u a) s) = false := by
  intro ts
  induction ts with
  | nil => intro s h; exact h
  | cons u us ih =>
    intro s h
    exact ih (stripChildType u s) (hasChildFrag_stripChildType_other t u s h)

theorem foldl_strip_no_frag :
    ∀ (ts : List (List Char)) (s t : List Char), t ∈ ts →
      hasChildFrag t (ts.foldl (fun a u => stripChildType u a) s) = false := by
  intro ts
  induction ts with
  | nil => intro s t h; simp at h
  | cons u us ih =>
    intro s t h
    rcases List.mem_cons.mp h with rfl | h
    · exact foldl_strip_preserves t us (stripChildType t s)
        (hasChildFrag_stripChildType t s)
    · exact ih (stripChildType u s) t h

theorem foldl_map_strip :
    ∀ (ts : List (List Char)) (filters : List (List Char)),
      ts.foldl (fun fs t => fs.map (stripChildType t)) filters =
        filters.map (fun s => ts.foldl (fun a u => stripChildType u a) s) := by
  intro ts
  induction ts with
  | nil => intro filters; simp
  | cons u us ih =>
    intro filters
    simp only [List.foldl_cons]
    rw [ih (filters.map (stripChildType u)), List.map_map]
    rfl

/-- C4: every filter surviving generateFiltersFromChangelog is non-empty
and contains no fragment matching the regex of any table-child object kind
(column, constraint, index, trigger, rule); in particular every
auto-generated child-level filter fragment is removed before the filters
are added to the filter widget. -/
theorem changelog_filters_strip_table_children :
    ∀ (filters : List (List Char)) (s : List Char),
      s ∈ generateFiltersFromChangelog filters →
      s ≠ [] ∧ ∀ t ∈ tabObjTypes, hasChildFrag t s = false := by
  intro filters s hs
  unfold generateFiltersFromChangelog at hs
  rw [foldl_map_strip] at hs
  have hmem := List.mem_filter.mp hs
  obtain ⟨hmap, hne⟩ := hmem
  constructor
  · intro hnil
    subst hnil
    simp at hne
  · obtain ⟨s0, _, rfl⟩ := List.mem_map.mp hmap
    intro t ht
    exact foldl_strip_no_frag tabObjTypes s0 t ht

/-- Witness for C4: from a changelog-derived filter list holding one table
filter and one column filter, only the table filter survives, non-empty
and free of child-kind fragments. -/
theorem changelog_filters_strip_table_children_witness :
    "table:public.t1:exact".data ∈
      generateFiltersFromChangelog
        ["table:public.t1:exact".data, "column:public.t1.c1:exact".data] ∧
    "table:public.t1:exact".data ≠ [] ∧
    ∀ t ∈ tabObjTypes, hasChildFrag t "table:public.t1:exact".data = false :=
  ⟨by decide,
    changelog_filters_strip_table_children
      ["table:public.t1:exact".data, "column:public.t1.c1:exact".data]
      "table:public.t1:exact".data (by decide)⟩

end PgDiff
